import Mathlib

/-!
Verification of the semantic-grid SQL-rewriting and metadata core.

Shallow embedding of:
- `build_sorted_paginated_sql` and `validate_sort_column`
  (src/apps/fm-app/fm_app/api/routes.py),
- `MetadataValidator.extract_result_columns` / `validate_metadata`
  (src/apps/fm-app/fm_app/validators/metadata_validator.py),
- `_get_table_metadata_with_fallback`, `_should_include_table`,
  `generate_schema_prompt`, `parse_trino_estimates`
  (src/apps/db-meta/dbmeta_app/prompt_items/db_struct.py).

Modelling conventions: Python strings are Lean `String` / `List Char`
(lowercasing and whitespace predicates restricted to their ASCII behaviour);
Python `int` is `Nat`; Python `float` is `ℚ` (the size conversions here only
scale by powers of two, which is exact in both models); Python exceptions are
`Except`; Python `dict` is an association list with dict update semantics
(last write wins, insertion position preserved).
-/

namespace SemanticGrid

/-! ## Substring occurrence counting

`countOcc pat s` counts the positions of `s` (possibly overlapping) at which
the pattern `pat` starts.  It is used to state "the rewritten SQL contains
exactly one `:limit` token" and similar properties. -/

/-- Number of occurrences of `pat` as a (possibly overlapping) substring of
`s`: the number of suffix positions of `s` at which `pat` begins. -/
def countOcc (pat : List Char) : List Char → Nat
  | [] => 0
  | c :: rest => (if pat.isPrefixOf (c :: rest) then 1 else 0) + countOcc pat rest

/-- First position of `s` at which `pat` begins, if any. -/
def firstIdx (pat : List Char) : List Char → Option Nat
  | [] => none
  | c :: rest =>
    if pat.isPrefixOf (c :: rest) then some 0
    else (firstIdx pat rest).map (· + 1)

theorem isPrefixOf_iff_exists (l₁ l₂ : List Char) :
    l₁.isPrefixOf l₂ = true ↔ ∃ t, l₁ ++ t = l₂ := by
  induction l₁ generalizing l₂ with
  | nil => simp [List.isPrefixOf]
  | cons a as ih =>
    cases l₂ with
    | nil => simp [List.isPrefixOf]
    | cons b bs =>
      simp only [List.isPrefixOf, Bool.and_eq_true, beq_iff_eq, ih]
      constructor
      · rintro ⟨rfl, t, rfl⟩
        exact ⟨t, rfl⟩
      · rintro ⟨t, h⟩
        injection h with h1 h2
        exact ⟨h1, t, h2⟩

theorem isPrefixOf_mono_append (l₁ s b : List Char)
    (h : l₁.isPrefixOf s = true) : l₁.isPrefixOf (s ++ b) = true := by
  rw [isPrefixOf_iff_exists] at h ⊢
  obtain ⟨t, rfl⟩ := h
  exact ⟨t ++ b, by simp⟩

/-- If no decomposition `pat = s ++ u` with `u` nonempty has `u` a prefix of
`b`, then whether `pat` starts at the head of `s ++ b` only depends on `s`. -/
theorem isPrefixOf_append_indicator (pat s b : List Char) (hs : s ≠ [])
    (hnc : ∀ u t, u ≠ [] → s ++ u = pat → u ++ t ≠ b) :
    pat.isPrefixOf (s ++ b) = pat.isPrefixOf s := by
  by_cases h : pat.isPrefixOf s = true
  · rw [h, isPrefixOf_mono_append _ _ _ h]
  · rw [Bool.eq_false_iff.mpr h]
    by_cases h2 : pat.isPrefixOf (s ++ b) = true
    · exfalso
      rw [isPrefixOf_iff_exists] at h2
      obtain ⟨t, ht⟩ := h2
      by_cases hlen : pat.length ≤ s.length
      · -- then pat is a prefix of s already, contradiction
        apply h
        rw [isPrefixOf_iff_exists]
        refine ⟨s.drop pat.length, ?_⟩
        have h3 : pat = (s ++ b).take pat.length := by
          rw [← ht, List.take_left]
        rw [List.take_append_of_le_length hlen] at h3
        nth_rewrite 1 [h3]
        exact List.take_append_drop _ _
      · -- pat runs past s into b, contradicting hnc
        push_neg at hlen
        have hsp : s = pat.take s.length := by
          have := congrArg (List.take s.length) ht
          rw [List.take_append_of_le_length (Nat.le_of_lt hlen),
            List.take_left] at this
          exact this.symm
        have hsu : s ++ pat.drop s.length = pat := by
          conv_rhs => rw [← List.take_append_drop s.length pat, ← hsp]
        have hu : pat.drop s.length ≠ [] := by
          intro hnil
          rw [List.drop_eq_nil_iff] at hnil
          exact absurd (Nat.le_antisymm hnil (Nat.le_of_lt hlen))
            (Nat.ne_of_gt hlen)
        have hb : pat.drop s.length ++ t = b := by
          have := congrArg (List.drop s.length) ht
          rw [List.drop_append_of_le_length (Nat.le_of_lt hlen),
            List.drop_left] at this
          exact this
        exact hnc _ t hu hsu hb
    · rw [Bool.eq_false_iff.mpr h2]

/-- Splitting a substring count at an append boundary, given that no nonempty
suffix of `a` continues as an occurrence of `pat` into `b`. -/
theorem countOcc_append (pat a b : List Char)
    (hnc : ∀ s u t, s ≠ [] → (∃ v, v ++ s = a) → u ≠ [] → s ++ u = pat →
      u ++ t ≠ b) :
    countOcc pat (a ++ b) = countOcc pat a + countOcc pat b := by
  induction a with
  | nil => simp [countOcc]
  | cons x a' ih =>
    have hind : pat.isPrefixOf (x :: a' ++ b) = pat.isPrefixOf (x :: a') := by
      refine isPrefixOf_append_indicator pat (x :: a') b (by simp) ?_
      intro u t hu hsu
      exact hnc (x :: a') u t (by simp) ⟨[], rfl⟩ hu hsu
    have ih' : countOcc pat (a' ++ b) = countOcc pat a' + countOcc pat b := by
      refine ih ?_
      intro s u t hs ⟨v, hv⟩ hu hsu
      exact hnc s u t hs ⟨x :: v, by rw [← hv]; rfl⟩ hu hsu
    show (if pat.isPrefixOf (x :: (a' ++ b)) then 1 else 0) +
        countOcc pat (a' ++ b) = _
    rw [show x :: (a' ++ b) = (x :: a') ++ b from rfl, hind, ih']
    show _ = (if pat.isPrefixOf (x :: a') then 1 else 0) +
        countOcc pat a' + countOcc pat b
    omega

/-- Append-splitting when `b` starts with a char that no proper tail of `pat`
starts with: no occurrence of `pat` can cross the boundary. -/
theorem countOcc_append_headc (pat : List Char) (c : Char) (a b : List Char)
    (hb : b.head? = some c)
    (hc : ∀ j, j < pat.length → 0 < j → (pat.drop j).head? ≠ some c) :
    countOcc pat (a ++ b) = countOcc pat a + countOcc pat b := by
  refine countOcc_append pat a b ?_
  intro s u t hs _ hu hsu hb'
  have hju : pat.drop s.length = u := by rw [← hsu, List.drop_left]
  have hjlt : s.length < pat.length := by
    rw [← hsu, List.length_append]
    have := List.length_pos.mpr hu
    omega
  have hjpos : 0 < s.length := List.length_pos.mpr hs
  apply hc s.length hjlt hjpos
  rw [hju]
  cases u with
  | nil => exact absurd rfl hu
  | cons uc urest =>
    rw [← hb, ← hb']
    rfl

/-- Append-splitting when `a` ends with a char that no proper initial segment
of `pat` ends with: no occurrence of `pat` can cross the boundary. -/
theorem countOcc_append_lastc (pat : List Char) (c : Char) (a b : List Char)
    (ha : a.getLast? = some c)
    (hc : ∀ j, j < pat.length → 0 < j → (pat.take j).getLast? ≠ some c) :
    countOcc pat (a ++ b) = countOcc pat a + countOcc pat b := by
  refine countOcc_append pat a b ?_
  intro s u t hs ⟨v, hv⟩ hu hsu _
  have hjs : pat.take s.length = s := by rw [← hsu, List.take_left]
  have hjlt : s.length < pat.length := by
    rw [← hsu, List.length_append]
    have := List.length_pos.mpr hu
    omega
  have hjpos : 0 < s.length := List.length_pos.mpr hs
  apply hc s.length hjlt hjpos
  rw [hjs, ← ha, ← hv]
  exact (List.getLast?_append_of_ne_nil v hs).symm

/-- If `pat` starts with a char not occurring in `s`, it does not occur. -/
theorem countOcc_eq_zero_of_head_notMem (pat : List Char) (c : Char)
    (s : List Char) (hp : pat.head? = some c) (h : c ∉ s) :
    countOcc pat s = 0 := by
  induction s with
  | nil => rfl
  | cons x rest ih =>
    have hx : countOcc pat rest = 0 := ih (fun hm => h (List.mem_cons_of_mem _ hm))
    show (if pat.isPrefixOf (x :: rest) then 1 else 0) + countOcc pat rest = 0
    rw [hx]
    have : pat.isPrefixOf (x :: rest) = false := by
      cases hpre : pat.isPrefixOf (x :: rest) with
      | false => rfl
      | true =>
        exfalso
        rw [isPrefixOf_iff_exists] at hpre
        obtain ⟨t, ht⟩ := hpre
        cases pat with
        | nil => exact Option.noConfusion hp
        | cons pc prest =>
          have hcx : pc = c := by injection hp
          have hpx : pc = x := by injection ht
          refine h ?_
          rw [← hcx, hpx]
          exact List.mem_cons_self x rest
    rw [this]
    rfl

theorem countOcc_le_append_left (pat a b : List Char) :
    countOcc pat b ≤ countOcc pat (a ++ b) := by
  induction a with
  | nil => simp
  | cons x a' ih =>
    calc countOcc pat b ≤ countOcc pat (a' ++ b) := ih
    _ ≤ (if pat.isPrefixOf (x :: (a' ++ b)) then 1 else 0) +
        countOcc pat (a' ++ b) := Nat.le_add_left _ _
    _ = countOcc pat ((x :: a') ++ b) := rfl

theorem countOcc_le_append_right (pat a b : List Char) :
    countOcc pat a ≤ countOcc pat (a ++ b) := by
  induction a with
  | nil => simp [countOcc]
  | cons x a' ih =>
    show (if pat.isPrefixOf (x :: a') then 1 else 0) + countOcc pat a' ≤
      (if pat.isPrefixOf (x :: (a' ++ b)) then 1 else 0) + countOcc pat (a' ++ b)
    have hmono : (if pat.isPrefixOf (x :: a') then 1 else 0) ≤
        (if pat.isPrefixOf (x :: (a' ++ b)) then (1 : Nat) else 0) := by
      by_cases hp : pat.isPrefixOf (x :: a') = true
      · rw [hp, show x :: (a' ++ b) = (x :: a') ++ b from rfl,
          isPrefixOf_mono_append _ _ _ hp]
      · rw [Bool.eq_false_iff.mpr hp]
        simp
    exact Nat.add_le_add hmono ih

/-- Occurrence count inside an infix never exceeds the whole count. -/
theorem countOcc_infix_le (pat u t v : List Char) :
    countOcc pat t ≤ countOcc pat (u ++ t ++ v) := by
  calc countOcc pat t ≤ countOcc pat (t ++ v) := countOcc_le_append_right _ _ _
  _ ≤ countOcc pat (u ++ (t ++ v)) := countOcc_le_append_left _ _ _
  _ = countOcc pat (u ++ t ++ v) := by rw [List.append_assoc]

theorem isSuffixOf_iff_exists (s a : List Char) :
    s.isSuffixOf a = true ↔ ∃ v, v ++ s = a := by
  show s.reverse.isPrefixOf a.reverse = true ↔ _
  rw [isPrefixOf_iff_exists]
  constructor
  · rintro ⟨t, ht⟩
    refine ⟨t.reverse, ?_⟩
    have := congrArg List.reverse ht
    simpa using this
  · rintro ⟨v, rfl⟩
    exact ⟨v.reverse, by simp⟩

/-- Decidable check: no nonempty proper initial segment of `pat` is a suffix
of `a` (so no occurrence of `pat` can start inside `a` and continue past it). -/
def noTailMatch (pat a : List Char) : Bool :=
  (List.range pat.length).all (fun j => decide (j = 0) || !((pat.take j).isSuffixOf a))

/-- Decidable check: no nonempty proper tail of `pat` is a prefix of `b`. -/
def noHeadMatch (pat b : List Char) : Bool :=
  (List.range pat.length).all (fun j => decide (j = 0) || !((pat.drop j).isPrefixOf b))

/-- Append-splitting justified by `noTailMatch` on the left part. -/
theorem countOcc_append_noTail (pat a b : List Char)
    (h : noTailMatch pat a = true) :
    countOcc pat (a ++ b) = countOcc pat a + countOcc pat b := by
  refine countOcc_append pat a b ?_
  intro s u t hs ⟨v, hv⟩ hu hsu _
  have hjs : pat.take s.length = s := by rw [← hsu, List.take_left]
  have hjlt : s.length < pat.length := by
    rw [← hsu, List.length_append]
    have := List.length_pos.mpr hu
    omega
  have hjpos : 0 < s.length := List.length_pos.mpr hs
  have := (List.all_eq_true.mp h) s.length (List.mem_range.mpr hjlt)
  rw [Bool.or_eq_true, decide_eq_true_iff, Bool.not_eq_true',
    Bool.eq_false_iff] at this
  rcases this with h0 | hns
  · omega
  · exact hns ((isSuffixOf_iff_exists _ _).mpr ⟨v, by rw [hjs, hv]⟩)

/-- Append-splitting justified by `noHeadMatch` on the right part. -/
theorem countOcc_append_noHead (pat a b : List Char)
    (h : noHeadMatch pat b = true) :
    countOcc pat (a ++ b) = countOcc pat a + countOcc pat b := by
  refine countOcc_append pat a b ?_
  intro s u t hs _ hu hsu hb
  have hju : pat.drop s.length = u := by rw [← hsu, List.drop_left]
  have hjlt : s.length < pat.length := by
    rw [← hsu, List.length_append]
    have := List.length_pos.mpr hu
    omega
  have hjpos : 0 < s.length := List.length_pos.mpr hs
  have := (List.all_eq_true.mp h) s.length (List.mem_range.mpr hjlt)
  rw [Bool.or_eq_true, decide_eq_true_iff, Bool.not_eq_true',
    Bool.eq_false_iff] at this
  rcases this with h0 | hns
  · omega
  · exact hns ((isPrefixOf_iff_exists _ _).mpr ⟨t, by rw [hju, hb]⟩)

theorem dropWhile_suffix_exists (p : Char → Bool) (l : List Char) :
    ∃ u, u ++ l.dropWhile p = l := by
  induction l with
  | nil => exact ⟨[], rfl⟩
  | cons x rest ih =>
    by_cases hx : p x = true
    · obtain ⟨u, hu⟩ := ih
      refine ⟨x :: u, ?_⟩
      rw [List.dropWhile_cons_of_pos hx]
      rw [List.cons_append, hu]
    · exact ⟨[], by rw [List.nil_append, List.dropWhile_cons_of_neg hx]⟩

/-- Dropping from the right end of a list while a predicate holds. -/
def rdropWhileL (p : Char → Bool) (l : List Char) : List Char :=
  (l.reverse.dropWhile p).reverse

theorem rdropWhileL_exists (p : Char → Bool) (l : List Char) :
    ∃ v, rdropWhileL p l ++ v = l := by
  obtain ⟨u, hu⟩ := dropWhile_suffix_exists p l.reverse
  refine ⟨u.reverse, ?_⟩
  have := congrArg List.reverse hu
  simpa [rdropWhileL] using this

theorem strData_append (s t : String) : (s ++ t).data = s.data ++ t.data := by
  cases s
  cases t
  rfl

/-! ## SqlRewriter: `build_sorted_paginated_sql`
(src/apps/fm-app/fm_app/api/routes.py, lines 385-479). -/

/-- Python truthiness of an optional string (`if sort_by:` on an
`Optional[str]`): false for `None` and for the empty string. -/
def optStrTruthy : Option String → Bool
  | some s => s != ""
  | none => false

/-- Python `str.strip()` (whitespace from both ends; ASCII behaviour). -/
def pyStrip (s : String) : String :=
  ⟨rdropWhileL Char.isWhitespace (s.data.dropWhile Char.isWhitespace)⟩

/-- Python `str.rstrip(";")`: drop all trailing semicolons. -/
def pyRstripSemicolon (s : String) : String :=
  ⟨rdropWhileL (fun c => c = ';') s.data⟩

/-- Python `sort_by.replace('"', '""')`: double every double-quote char. -/
def pyDoubleQuotes (s : String) : String :=
  ⟨s.data.flatMap (fun c => if c = '"' then ['"', '"'] else [c])⟩

/-- The `order_clause` computed by `build_sorted_paginated_sql`
(routes.py lines 417-433): quoted identifier for trino, bare otherwise;
when `sort_by` is absent, `ORDER BY 1 ASC` for trino and nothing otherwise. -/
def build_order_clause (sort_by : Option String) (sort_order dialect : String) :
    String :=
  if optStrTruthy sort_by then
    let sb := sort_by.getD ""
    if dialect = "trino" then
      "\n        ORDER BY " ++ ("\"" ++ pyDoubleQuotes sb ++ "\"") ++ " " ++
        sort_order
    else
      "\n        ORDER BY " ++ sb ++ " " ++ sort_order
  else
    if dialect = "trino" then "\n        ORDER BY 1 ASC" else ""

/-- Embedding of `build_sorted_paginated_sql` (routes.py lines 385-479) for an
explicitly supplied dialect string; the `dialect is None` auto-detection branch
reads an external cached value and is the caller's concern.  The four f-string
templates are transcribed verbatim. -/
def build_sorted_paginated_sql (user_sql0 : String) (sort_by : Option String)
    (sort_order : String) (include_total_count : Bool) (dialect : String) :
    String :=
  let user_sql := pyRstripSemicolon (pyStrip user_sql0)
  let order_clause := build_order_clause sort_by sort_order dialect
  if include_total_count then
    if dialect = "trino" then
      "\n        SELECT\n          t.*,\n          (SELECT COUNT(*) FROM (" ++
        (user_sql ++
        (") AS count_subquery) AS total_count\n        FROM (" ++
        (user_sql ++
        (") AS t\n        " ++
        (order_clause ++
        "\n        OFFSET :offset LIMIT :limit\n        ")))))
    else
      "\n        WITH orig_sql AS (\n          " ++
        (user_sql ++
        ("\n        )\n        SELECT\n          t.*,\n          COUNT(*) OVER () AS total_count\n        FROM orig_sql AS t\n        " ++
        (order_clause ++
        "\n        LIMIT :limit OFFSET :offset\n        ")))
  else
    if dialect = "trino" then
      "\n            SELECT\n            t.*\n            FROM (" ++
        (user_sql ++
        (") AS t\n            " ++
        (order_clause ++
        "\n            OFFSET :offset LIMIT :limit\n            ")))
    else
      "\n            SELECT\n            t.*\n            FROM (" ++
        (user_sql ++
        (") AS t\n            " ++
        (order_clause ++
        "\n            LIMIT :limit OFFSET :offset\n            ")))

/-- The `:limit` bind-placeholder token. -/
def limitTok : String := ":limit"

/-- The `:offset` bind-placeholder token. -/
def offsetTok : String := ":offset"

/-- Holds (as `true`) when the first occurrence of `pat1` starts strictly
before the first occurrence of `pat2` (both must occur). -/
def firstBefore (pat1 pat2 s : List Char) : Bool :=
  match firstIdx pat1 s, firstIdx pat2 s with
  | some i, some j => i < j
  | _, _ => false

set_option maxRecDepth 40000 in
/-- C3: with `include_total_count = true` the count strategy is chosen by
dialect.  For trino the result contains the scalar subquery
`(SELECT COUNT(*) FROM` with alias `count_subquery`, the double-quoted sort
identifier, and `OFFSET` before `LIMIT`; for clickhouse and postgres it
contains `WITH orig_sql AS`, `COUNT(*) OVER ()`, and `LIMIT` before
`OFFSET`. -/
theorem rewrite_count_strategy_by_dialect :
    (let r := (build_sorted_paginated_sql ("SELECT * FROM trades")
      (some ("amount")) ("desc") true ("trino")).data
    countOcc ("(SELECT COUNT(*) FROM").data r = 1 ∧
    countOcc ("count_subquery").data r = 1 ∧
    countOcc ("\"amount\"").data r = 1 ∧
    firstBefore ("OFFSET").data ("LIMIT").data r = true) ∧
    (let r := (build_sorted_paginated_sql ("SELECT * FROM trades")
      (some ("amount")) ("desc") true ("clickhouse")).data
    countOcc ("WITH orig_sql AS").data r = 1 ∧
    countOcc ("COUNT(*) OVER ()").data r = 1 ∧
    firstBefore ("LIMIT").data ("OFFSET").data r = true) ∧
    (let r := (build_sorted_paginated_sql ("SELECT * FROM trades")
      (some ("amount")) ("desc") true ("postgres")).data
    countOcc ("WITH orig_sql AS").data r = 1 ∧
    countOcc ("COUNT(*) OVER ()").data r = 1 ∧
    firstBefore ("LIMIT").data ("OFFSET").data r = true) := by
  refine ⟨by decide, by decide, by decide⟩

set_option maxRecDepth 40000 in
/-- C4 counterexample: with `sort_by` absent, `sort_order = "desc"` and
dialect trino, the synthesized clause is `ORDER BY 1 ASC` — the requested
direction is ignored (no `desc`/`DESC` token occurs at all), refuting the
claim that the synthesized direction is the requested `sort_order`. -/
theorem rewrite_default_order_direction_cex :
    let r := (build_sorted_paginated_sql ("SELECT 1") none ("desc") false
      ("trino")).data
    countOcc ("ORDER BY 1 ASC").data r = 1 ∧
    countOcc ("desc").data r = 0 ∧
    countOcc ("DESC").data r = 0 := by
  decide

theorem strData_nil : ("" : String).data = [] := rfl

set_option maxRecDepth 40000 in
/-- C4 (amended): when `sort_by` is absent and the dialect is trino, the
rewritten SQL contains a synthesized `ORDER BY 1 ASC` clause — always
ascending, regardless of the requested `sort_order`; for any other dialect no
ORDER BY clause is added (the `ORDER BY` occurrence count of the result equals
that of the stripped input). -/
theorem rewrite_default_order_by (user_sql sort_order : String) (itc : Bool)
    (dialect : String) (hd : dialect ≠ "trino") :
    countOcc (("ORDER BY 1 ASC").data)
      (build_sorted_paginated_sql user_sql none sort_order itc ("trino")).data
      ≥ 1 ∧
    countOcc (("ORDER BY").data)
      (build_sorted_paginated_sql user_sql none sort_order itc dialect).data =
      countOcc (("ORDER BY").data)
        (pyRstripSemicolon (pyStrip user_sql)).data := by
  constructor
  · -- trino: the synthesized clause is a literal piece of the template
    cases itc with
    | true =>
      have hdata : (build_sorted_paginated_sql user_sql none sort_order true
          ("trino")).data =
          ("\n        SELECT\n          t.*,\n          (SELECT COUNT(*) FROM (").data ++
          ((pyRstripSemicolon (pyStrip user_sql)).data ++
          ((") AS count_subquery) AS total_count\n        FROM (").data ++
          ((pyRstripSemicolon (pyStrip user_sql)).data ++
          ((") AS t\n        ").data ++
          (("\n        ORDER BY 1 ASC").data ++
          ("\n        OFFSET :offset LIMIT :limit\n        ").data))))) := by
        simp [build_sorted_paginated_sql, build_order_clause, optStrTruthy,
          strData_append]
      rw [ge_iff_le, hdata]
      refine le_trans ?_ (countOcc_le_append_left _ _ _)
      refine le_trans ?_ (countOcc_le_append_left _ _ _)
      refine le_trans ?_ (countOcc_le_append_left _ _ _)
      refine le_trans ?_ (countOcc_le_append_left _ _ _)
      refine le_trans ?_ (countOcc_le_append_left _ _ _)
      refine le_trans ?_ (countOcc_le_append_right _ _ _)
      decide
    | false =>
      have hdata : (build_sorted_paginated_sql user_sql none sort_order false
          ("trino")).data =
          ("\n            SELECT\n            t.*\n            FROM (").data ++
          ((pyRstripSemicolon (pyStrip user_sql)).data ++
          ((") AS t\n            ").data ++
          (("\n        ORDER BY 1 ASC").data ++
          ("\n            OFFSET :offset LIMIT :limit\n            ").data))) := by
        simp [build_sorted_paginated_sql, build_order_clause, optStrTruthy,
          strData_append]
      rw [ge_iff_le, hdata]
      refine le_trans ?_ (countOcc_le_append_left _ _ _)
      refine le_trans ?_ (countOcc_le_append_left _ _ _)
      refine le_trans ?_ (countOcc_le_append_left _ _ _)
      refine le_trans ?_ (countOcc_le_append_right _ _ _)
      decide
  · -- non-trino: order_clause is empty, templates contain no ORDER BY
    cases itc with
    | true =>
      have hdata : (build_sorted_paginated_sql user_sql none sort_order true
          dialect).data =
          ("\n        WITH orig_sql AS (\n          ").data ++
          ((pyRstripSemicolon (pyStrip user_sql)).data ++
          (("\n        )\n        SELECT\n          t.*,\n          COUNT(*) OVER () AS total_count\n        FROM orig_sql AS t\n        ").data ++
          ("\n        LIMIT :limit OFFSET :offset\n        ").data)) := by
        simp [build_sorted_paginated_sql, build_order_clause, optStrTruthy,
          strData_append, hd]
      rw [hdata]
      rw [countOcc_append_noTail _ _ _ (by decide)]
      rw [countOcc_append_headc (("ORDER BY").data) '\n'
        (pyRstripSemicolon (pyStrip user_sql)).data
        (("\n        )\n        SELECT\n          t.*,\n          COUNT(*) OVER () AS total_count\n        FROM orig_sql AS t\n        ").data ++
          ("\n        LIMIT :limit OFFSET :offset\n        ").data)
        (by rfl) (by decide)]
      rw [show countOcc (("ORDER BY").data)
        (("\n        )\n        SELECT\n          t.*,\n          COUNT(*) OVER () AS total_count\n        FROM orig_sql AS t\n        ").data ++
          ("\n        LIMIT :limit OFFSET :offset\n        ").data) = 0 from by
          decide]
      rw [show countOcc (("ORDER BY").data)
        ("\n        WITH orig_sql AS (\n          ").data = 0 from by decide]
      omega
    | false =>
      have hdata : (build_sorted_paginated_sql user_sql none sort_order false
          dialect).data =
          ("\n            SELECT\n            t.*\n            FROM (").data ++
          ((pyRstripSemicolon (pyStrip user_sql)).data ++
          ((") AS t\n            ").data ++
          ("\n            LIMIT :limit OFFSET :offset\n            ").data)) := by
        simp [build_sorted_paginated_sql, build_order_clause, optStrTruthy,
          strData_append, hd]
      rw [hdata]
      rw [countOcc_append_noTail _ _ _ (by decide)]
      rw [countOcc_append_headc (("ORDER BY").data) ')'
        (pyRstripSemicolon (pyStrip user_sql)).data
        ((") AS t\n            ").data ++
          ("\n            LIMIT :limit OFFSET :offset\n            ").data)
        (by rfl) (by decide)]
      rw [show countOcc (("ORDER BY").data)
        ((") AS t\n            ").data ++
          ("\n            LIMIT :limit OFFSET :offset\n            ").data) = 0
        from by decide]
      rw [show countOcc (("ORDER BY").data)
        ("\n            SELECT\n            t.*\n            FROM (").data = 0
        from by decide]
      omega

theorem countOcc_strip_zero (pat : List Char) (s : String)
    (h : countOcc pat s.data = 0) :
    countOcc pat (pyRstripSemicolon (pyStrip s)).data = 0 := by
  obtain ⟨u, hu⟩ := dropWhile_suffix_exists Char.isWhitespace s.data
  obtain ⟨v, hv⟩ :=
    rdropWhileL_exists Char.isWhitespace (s.data.dropWhile Char.isWhitespace)
  obtain ⟨w, hw⟩ := rdropWhileL_exists (fun c => c = ';')
    (rdropWhileL Char.isWhitespace (s.data.dropWhile Char.isWhitespace))
  have hdata : (pyRstripSemicolon (pyStrip s)).data =
      rdropWhileL (fun c => c = ';')
        (rdropWhileL Char.isWhitespace (s.data.dropWhile Char.isWhitespace)) :=
    rfl
  rw [hdata]
  have hle : countOcc pat (rdropWhileL (fun c => c = ';')
      (rdropWhileL Char.isWhitespace (s.data.dropWhile Char.isWhitespace))) ≤
      countOcc pat s.data := by
    calc countOcc pat (rdropWhileL (fun c => c = ';')
        (rdropWhileL Char.isWhitespace (s.data.dropWhile Char.isWhitespace)))
        ≤ countOcc pat (rdropWhileL (fun c => c = ';')
            (rdropWhileL Char.isWhitespace
              (s.data.dropWhile Char.isWhitespace)) ++ w) :=
          countOcc_le_append_right _ _ _
      _ = countOcc pat (rdropWhileL Char.isWhitespace
            (s.data.dropWhile Char.isWhitespace)) := by rw [hw]
      _ ≤ countOcc pat (rdropWhileL Char.isWhitespace
            (s.data.dropWhile Char.isWhitespace) ++ v) :=
          countOcc_le_append_right _ _ _
      _ = countOcc pat (s.data.dropWhile Char.isWhitespace) := by rw [hv]
      _ ≤ countOcc pat (u ++ s.data.dropWhile Char.isWhitespace) :=
          countOcc_le_append_left _ _ _
      _ = countOcc pat s.data := by rw [hu]
  omega

theorem mem_pyDoubleQuotes (c : Char) (s : String)
    (h : c ∈ (pyDoubleQuotes s).data) : c = '"' ∨ c ∈ s.data := by
  simp only [pyDoubleQuotes] at h
  rw [List.mem_flatMap] at h
  obtain ⟨x, hx, hc⟩ := h
  by_cases hq : x = '"'
  · subst hq
    have : c = '"' := by simpa using hc
    exact Or.inl this
  · rw [if_neg hq] at hc
    have : c = x := by simpa using hc
    exact Or.inr (this ▸ hx)

theorem colon_notMem_order_clause (sort_by : Option String)
    (sort_order dialect : String)
    (hsb : ∀ sb, sort_by = some sb → (':') ∉ sb.data)
    (hso : (':') ∉ sort_order.data) :
    (':') ∉ (build_order_clause sort_by sort_order dialect).data := by
  intro hmem
  cases sort_by with
  | none =>
    by_cases hd : dialect = "trino"
    · subst hd
      simp only [build_order_clause, optStrTruthy, Bool.false_eq_true,
        if_false, if_pos rfl] at hmem
      exact absurd hmem (by decide)
    · simp only [build_order_clause, optStrTruthy, Bool.false_eq_true,
        if_false, if_neg hd] at hmem
      exact absurd hmem (by decide)
  | some sb =>
    by_cases hsb0 : sb = ""
    · subst hsb0
      by_cases hd : dialect = "trino"
      · subst hd
        simp only [build_order_clause, optStrTruthy, bne_self_eq_false,
          Bool.false_eq_true, if_false, if_pos rfl] at hmem
        exact absurd hmem (by decide)
      · simp only [build_order_clause, optStrTruthy, bne_self_eq_false,
          Bool.false_eq_true, if_false, if_neg hd] at hmem
        exact absurd hmem (by decide)
    · have htr : optStrTruthy (some sb) = true := by
        simp [optStrTruthy, hsb0]
      by_cases hd : dialect = "trino"
      · subst hd
        rw [build_order_clause, htr, if_pos rfl] at hmem
        simp only [Option.getD_some, strData_append] at hmem
        rcases List.mem_append.mp hmem with h | h
        · rcases List.mem_append.mp h with h | h
          · rcases List.mem_append.mp h with h | h
            · exact absurd h (by decide)
            · rcases List.mem_append.mp h with h | h
              · rcases List.mem_append.mp h with h | h
                · exact absurd h (by decide)
                · rcases mem_pyDoubleQuotes _ _ h with h2 | h2
                  · exact absurd h2 (by decide)
                  · exact hsb sb rfl h2
              · exact absurd h (by decide)
          · exact absurd h (by decide)
        · exact hso h
      · rw [build_order_clause, htr, if_pos rfl, if_neg hd] at hmem
        simp only [Option.getD_some, strData_append] at hmem
        rcases List.mem_append.mp hmem with h | h
        · rcases List.mem_append.mp h with h | h
          · rcases List.mem_append.mp h with h | h
            · exact absurd h (by decide)
            · exact hsb sb rfl h
          · exact absurd h (by decide)
        · exact hso h

theorem countOcc_order_clause_zero (tok : String)
    (htok : tok.data.head? = some ':') (sort_by : Option String)
    (sort_order dialect : String)
    (hsb : ∀ sb, sort_by = some sb → (':') ∉ sb.data)
    (hso : (':') ∉ sort_order.data) :
    countOcc tok.data (build_order_clause sort_by sort_order dialect).data = 0 :=
  countOcc_eq_zero_of_head_notMem _ ':' _ htok
    (colon_notMem_order_clause sort_by sort_order dialect hsb hso)

/-- Decidable check: no nonempty proper tail of `pat` starts with `c`. -/
def noTailStartsWith (pat : List Char) (c : Char) : Bool :=
  (List.range pat.length).all
    (fun j => decide (j = 0) || ((pat.drop j).head? != some c))

theorem noTailStartsWith_spec (pat : List Char) (c : Char)
    (h : noTailStartsWith pat c = true) :
    ∀ j, j < pat.length → 0 < j → (pat.drop j).head? ≠ some c := by
  intro j hj hj0
  have := (List.all_eq_true.mp h) j (List.mem_range.mpr hj)
  rw [Bool.or_eq_true, decide_eq_true_iff, bne_iff_ne] at this
  rcases this with h0 | hne
  · omega
  · exact hne

/-- Bundled decidable side conditions on a placeholder token, relative to the
literal fragments of the four pagination templates: the token never straddles
a fragment boundary, and each fragment contains it zero times except the
tail fragment carrying the placeholders, which contains it exactly once. -/
def c1TokOk (tok : List Char) : Bool :=
  noTailMatch tok ("\n        SELECT\n          t.*,\n          (SELECT COUNT(*) FROM (").data &&
  (noTailMatch tok (") AS count_subquery) AS total_count\n        FROM (").data &&
  (noTailMatch tok (") AS t\n        ").data &&
  (noTailMatch tok ("\n        WITH orig_sql AS (\n          ").data &&
  (noTailMatch tok ("\n        )\n        SELECT\n          t.*,\n          COUNT(*) OVER () AS total_count\n        FROM orig_sql AS t\n        ").data &&
  (noTailMatch tok ("\n            SELECT\n            t.*\n            FROM (").data &&
  (noTailMatch tok (") AS t\n            ").data &&
  (noTailStartsWith tok ')' &&
  (noTailStartsWith tok '\n' &&
  ((countOcc tok ("\n        SELECT\n          t.*,\n          (SELECT COUNT(*) FROM (").data == 0) &&
  ((countOcc tok (") AS count_subquery) AS total_count\n        FROM (").data == 0) &&
  ((countOcc tok (") AS t\n        ").data == 0) &&
  ((countOcc tok ("\n        OFFSET :offset LIMIT :limit\n        ").data == 1) &&
  ((countOcc tok ("\n        WITH orig_sql AS (\n          ").data == 0) &&
  ((countOcc tok ("\n        )\n        SELECT\n          t.*,\n          COUNT(*) OVER () AS total_count\n        FROM orig_sql AS t\n        ").data == 0) &&
  ((countOcc tok ("\n        LIMIT :limit OFFSET :offset\n        ").data == 1) &&
  ((countOcc tok ("\n            SELECT\n            t.*\n            FROM (").data == 0) &&
  ((countOcc tok (") AS t\n            ").data == 0) &&
  ((countOcc tok ("\n            OFFSET :offset LIMIT :limit\n            ").data == 1) &&
  (countOcc tok ("\n            LIMIT :limit OFFSET :offset\n            ").data == 1)))))))))))))))))))

/-- Core of C1, for one placeholder token satisfying `c1TokOk`. -/
theorem rewrite_token_once (tok : String) (htok : tok.data.head? = some ':')
    (hok : c1TokOk tok.data = true) (dialect : String)
    (sort_by : Option String) (sort_order : String) (itc : Bool)
    (user_sql : String) (hu : countOcc tok.data user_sql.data = 0)
    (hsb : ∀ sb, sort_by = some sb → (':') ∉ sb.data)
    (hso : (':') ∉ sort_order.data) :
    countOcc tok.data
      (build_sorted_paginated_sql user_sql sort_by sort_order itc
        dialect).data = 1 := by
  simp only [c1TokOk, Bool.and_eq_true] at hok
  obtain ⟨hA1, hB1, hC1, hA2, hB2, hA3, hC3, hPar, hNl, cA1, cB1, cC1, cD1,
    cA2, cB2, cD2, cA3, cC3, cD3, cD4⟩ := hok
  have hPar' := noTailStartsWith_spec _ _ hPar
  have hNl' := noTailStartsWith_spec _ _ hNl
  have cA1' := eq_of_beq cA1
  have cB1' := eq_of_beq cB1
  have cC1' := eq_of_beq cC1
  have cD1' := eq_of_beq cD1
  have cA2' := eq_of_beq cA2
  have cB2' := eq_of_beq cB2
  have cD2' := eq_of_beq cD2
  have cA3' := eq_of_beq cA3
  have cC3' := eq_of_beq cC3
  have cD3' := eq_of_beq cD3
  have cD4' := eq_of_beq cD4
  have hs0 : countOcc tok.data (pyRstripSemicolon (pyStrip user_sql)).data = 0 :=
    countOcc_strip_zero _ _ hu
  have hoc0 : countOcc tok.data
      (build_order_clause sort_by sort_order dialect).data = 0 :=
    countOcc_order_clause_zero tok htok sort_by sort_order dialect hsb hso
  by_cases hd : dialect = "trino" <;> cases itc
  · -- trino, include_total_count = false
    subst hd
    simp only [build_sorted_paginated_sql, Bool.false_eq_true, if_false,
      eq_self_iff_true, if_true, strData_append]
    rw [countOcc_append_noTail _ _ _ hA3]
    rw [countOcc_append_headc _ ')' _ _ (by rfl) hPar']
    rw [countOcc_append_noTail _ _ _ hC3]
    rw [countOcc_append_headc _ '\n' _ _ (by rfl) hNl']
    simp only [hs0, hoc0, cA3', cC3', cD3']
  · -- trino, include_total_count = true
    subst hd
    simp only [build_sorted_paginated_sql, Bool.false_eq_true, if_false,
      eq_self_iff_true, if_true, strData_append]
    rw [countOcc_append_noTail _ _ _ hA1]
    rw [countOcc_append_headc _ ')' _ _ (by rfl) hPar']
    rw [countOcc_append_noTail _ _ _ hB1]
    rw [countOcc_append_headc _ ')' _ _ (by rfl) hPar']
    rw [countOcc_append_noTail _ _ _ hC1]
    rw [countOcc_append_headc _ '\n' _ _ (by rfl) hNl']
    simp only [hs0, hoc0, cA1', cB1', cC1', cD1']
  · -- other dialect, include_total_count = false
    simp only [build_sorted_paginated_sql, Bool.false_eq_true, if_false,
      eq_self_iff_true, if_true, hd, strData_append]
    rw [countOcc_append_noTail _ _ _ hA3]
    rw [countOcc_append_headc _ ')' _ _ (by rfl) hPar']
    rw [countOcc_append_noTail _ _ _ hC3]
    rw [countOcc_append_headc _ '\n' _ _ (by rfl) hNl']
    simp only [hs0, hoc0, cA3', cC3', cD4']
  · -- other dialect, include_total_count = true
    simp only [build_sorted_paginated_sql, Bool.false_eq_true, if_false,
      eq_self_iff_true, if_true, hd, strData_append]
    rw [countOcc_append_noTail _ _ _ hA2]
    rw [countOcc_append_headc _ '\n' _ _ (by rfl) hNl']
    rw [countOcc_append_noTail _ _ _ hB2]
    rw [countOcc_append_headc _ '\n' _ _ (by rfl) hNl']
    simp only [hs0, hoc0, cA2', cB2', cD2']

set_option maxRecDepth 40000 in
/-- C1: for every dialect, every `sort_by` (absent or a column name, i.e. a
string without `:`), every `include_total_count`, and every input SQL that
contains neither a `:limit` nor an `:offset` token, the rewritten SQL contains
exactly one `:limit` and exactly one `:offset` token. -/
theorem rewrite_exactly_one_limit_offset (dialect : String)
    (sort_by : Option String) (sort_order : String) (itc : Bool)
    (user_sql : String)
    (hl : countOcc limitTok.data user_sql.data = 0)
    (ho : countOcc offsetTok.data user_sql.data = 0)
    (hsb : ∀ sb, sort_by = some sb → (':') ∉ sb.data)
    (hso : (':') ∉ sort_order.data) :
    countOcc limitTok.data
      (build_sorted_paginated_sql user_sql sort_by sort_order itc
        dialect).data = 1 ∧
    countOcc offsetTok.data
      (build_sorted_paginated_sql user_sql sort_by sort_order itc
        dialect).data = 1 :=
  ⟨rewrite_token_once limitTok rfl (by decide) dialect sort_by sort_order itc
      user_sql hl hsb hso,
    rewrite_token_once offsetTok rfl (by decide) dialect sort_by sort_order itc
      user_sql ho hsb hso⟩

set_option maxRecDepth 40000 in
/-- C1 witness at a concrete input. -/
theorem rewrite_exactly_one_limit_offset_witness :
    countOcc limitTok.data
      (build_sorted_paginated_sql ("SELECT a, b FROM t WHERE x = 2")
        (some ("amount")) ("asc") true ("clickhouse")).data = 1 ∧
    countOcc offsetTok.data
      (build_sorted_paginated_sql ("SELECT a, b FROM t WHERE x = 2")
        (some ("amount")) ("asc") true ("clickhouse")).data = 1 :=
  rewrite_exactly_one_limit_offset ("clickhouse") (some ("amount")) ("asc")
    true ("SELECT a, b FROM t WHERE x = 2") (by decide) (by decide)
    (by intro sb hsb; injection hsb with h; rw [← h]; decide) (by decide)

/-- C4 amended-claim witness at a concrete input. -/
theorem rewrite_default_order_by_witness :
    countOcc (("ORDER BY 1 ASC").data)
      (build_sorted_paginated_sql ("SELECT 1") none ("desc") false
        ("trino")).data ≥ 1 ∧
    countOcc (("ORDER BY").data)
      (build_sorted_paginated_sql ("SELECT 1") none ("desc") false
        ("clickhouse")).data =
      countOcc (("ORDER BY").data)
        (pyRstripSemicolon (pyStrip ("SELECT 1"))).data :=
  rewrite_default_order_by ("SELECT 1") ("desc") false ("clickhouse")
    (by decide)

/-! ## SortColumnValidator: `validate_sort_column`
(src/apps/fm-app/fm_app/api/routes.py, lines 202-250). -/

/-- Python `str.lower()` on one character (ASCII range). -/
def pyCharLower (c : Char) : Char :=
  if 'A' ≤ c ∧ c ≤ 'Z' then Char.ofNat (c.toNat + 32) else c

/-- Python `str.lower()` (ASCII range). -/
def pyLower (s : String) : String := ⟨s.data.map pyCharLower⟩

/-- One element of the `columns` argument: a typed `Column` object exposing
a `column_name` attribute, a loose dict with an optional `"column_name"` key,
or any other value (no name extractable). -/
inductive MetaColumn where
  | obj (column_name : Option String)
  | dict (column_name : Option String)
  | other
deriving DecidableEq

/-- The name extraction performed by the loop in `validate_sort_column`:
`col.column_name` for objects, `col.get("column_name")` for dicts, `None`
otherwise. -/
def extractColumnName : MetaColumn → Option String
  | .obj n => n
  | .dict n => n
  | .other => none

/-- Python dict assignment `m[k] = v` on an association list: overwrite in
place when the key exists (keeping its position), else append. -/
def pyDictSet (m : List (String × String)) (k v : String) :
    List (String × String) :=
  if m.any (fun p => p.1 == k) then
    m.map (fun p => if p.1 == k then (k, v) else p)
  else m ++ [(k, v)]

/-- The `valid_columns` dict built by `validate_sort_column`:
`valid_columns[column_name.lower()] = column_name` for every column with a
truthy extractable name. -/
def buildValidColumns (columns : List MetaColumn) : List (String × String) :=
  columns.foldl (fun m col =>
    match extractColumnName col with
    | some name => if name ≠ "" then pyDictSet m (pyLower name) name else m
    | none => m) []

/-- Insertion into a sorted list of strings (for Python `sorted`). -/
def insertSorted (x : String) : List String → List String
  | [] => [x]
  | y :: rest => if y < x then y :: insertSorted x rest else x :: y :: rest

/-- Python `sorted` on a list of strings. -/
def pySorted (l : List String) : List String := l.foldr insertSorted []

/-- An ASCII single-quote character, used in Python error messages. -/
def sq : String := ⟨[Char.ofNat 39]⟩

/-- Embedding of `validate_sort_column` (routes.py lines 202-250). -/
def validate_sort_column (sort_by : String)
    (columns : Option (List MetaColumn)) : Bool × String :=
  match columns with
  | none => (false, "Query metadata not available - cannot validate sort column")
  | some cols =>
    if cols.isEmpty then
      (false, "Query metadata not available - cannot validate sort column")
    else
      let valid_columns := buildValidColumns cols
      if valid_columns.isEmpty then
        (false, "No columns found in query metadata")
      else
        match List.lookup (pyLower sort_by) valid_columns with
        | none =>
          (false, "Invalid sort column " ++ sq ++ sort_by ++ sq ++
            ". Available columns: " ++
            String.intercalate (", ") (pySorted (valid_columns.map Prod.snd)))
        | some name => (true, name)

theorem lookup_mem (k v : String) (m : List (String × String))
    (h : List.lookup k m = some v) : (k, v) ∈ m := by
  induction m with
  | nil => simp [List.lookup] at h
  | cons p rest ih =>
    rw [List.lookup] at h
    cases hk : (k == p.1) with
    | true =>
      rw [hk] at h
      injection h with hv
      have : (k, v) = p := by
        rw [eq_of_beq hk, ← hv]
      rw [this]
      exact List.mem_cons_self p rest
    | false =>
      rw [hk] at h
      exact List.mem_cons_of_mem p (ih h)

/-- Pointwise invariant of the `valid_columns` dict: every entry value lowers
to its key. -/
def entInv (m : List (String × String)) : Prop :=
  ∀ p ∈ m, pyLower p.2 = p.1

theorem entInv_pyDictSet (m : List (String × String)) (name : String)
    (h : entInv m) : entInv (pyDictSet m (pyLower name) name) := by
  intro p hp
  unfold pyDictSet at hp
  by_cases hin : m.any (fun q => q.1 == pyLower name) = true
  · rw [if_pos hin] at hp
    rw [List.mem_map] at hp
    obtain ⟨q, hq, hfq⟩ := hp
    by_cases hqk : (q.1 == pyLower name) = true
    · rw [if_pos hqk] at hfq
      rw [← hfq]
    · rw [if_neg hqk] at hfq
      rw [← hfq]
      exact h q hq
  · rw [if_neg hin] at hp
    rw [List.mem_append] at hp
    rcases hp with hp | hp
    · exact h p hp
    · have : p = (pyLower name, name) := by simpa using hp
      rw [this]

theorem entInv_buildValidColumns (cols : List MetaColumn) :
    entInv (buildValidColumns cols) := by
  unfold buildValidColumns
  have haux : ∀ (cs : List MetaColumn) (m : List (String × String)),
      entInv m → entInv (cs.foldl (fun m col =>
        match extractColumnName col with
        | some name => if name ≠ "" then pyDictSet m (pyLower name) name else m
        | none => m) m) := by
    intro cs
    induction cs with
    | nil => intro m hm; exact hm
    | cons c rest ih =>
      intro m hm
      simp only [List.foldl_cons]
      refine ih _ ?_
      cases hc : extractColumnName c with
      | none => exact hm
      | some name =>
        by_cases hne : name ≠ ""
        · simp only [if_pos hne]
          exact entInv_pyDictSet m name hm
        · simp only [if_neg hne]
          exact hm
  exact haux cols [] (fun p hp => by simp at hp)

/-- Lookup form of the dict invariant: any value found in `valid_columns`
lowers to the key it was found under. -/
theorem dictInv_buildValidColumns (cols : List MetaColumn) (k v : String)
    (hkv : List.lookup k (buildValidColumns cols) = some v) : pyLower v = k :=
  entInv_buildValidColumns cols (k, v) (lookup_mem k v _ hkv)

/-- C9: sort-column validation is idempotent on its canonical result: a
successful validation returns a canonical name which, validated again against
the same columns, validates successfully to the very same string. -/
theorem validate_sort_column_idempotent (sort_by : String)
    (cols : List MetaColumn) (canonical : String)
    (h : validate_sort_column sort_by (some cols) = (true, canonical)) :
    validate_sort_column canonical (some cols) = (true, canonical) := by
  simp only [validate_sort_column] at h ⊢
  by_cases h1 : cols.isEmpty
  · rw [if_pos h1] at h
    simp at h
  · rw [if_neg h1] at h ⊢
    by_cases h2 : (buildValidColumns cols).isEmpty
    · simp only [if_pos h2] at h
      simp at h
    · simp only [if_neg h2] at h ⊢
      cases hlk : List.lookup (pyLower sort_by) (buildValidColumns cols) with
      | none =>
        rw [hlk] at h
        simp at h
      | some name =>
        rw [hlk] at h
        have hname : name = canonical := by
          have := congrArg Prod.snd h
          simpa using this
        subst hname
        have hcan : pyLower name = pyLower sort_by :=
          dictInv_buildValidColumns cols (pyLower sort_by) name hlk
        rw [hcan, hlk]

/-- C9 witness at a concrete input. -/
theorem validate_sort_column_idempotent_witness :
    validate_sort_column ("Amount") (some [MetaColumn.obj (some ("Amount"))]) =
      (true, "Amount") :=
  validate_sort_column_idempotent ("AMOUNT") [MetaColumn.obj (some ("Amount"))]
    ("Amount") (by decide)

/-- C8 counterexample: `validate_sort_column` returns the very same message
for `columns = None` and for `columns = []` — the claimed distinct messages do
not exist. -/
theorem validate_sort_column_messages_cex :
    (validate_sort_column ("amount") none).1 = false ∧
    (validate_sort_column ("amount") (some [])).1 = false ∧
    (validate_sort_column ("amount") none).2 =
      (validate_sort_column ("amount") (some [])).2 := by
  refine ⟨rfl, rfl, rfl⟩

/-- C8 (amended): an absent (`None`) column list and an empty column list both
yield `(false, m)` with the identical message
"Query metadata not available - cannot validate sort column". -/
theorem validate_sort_column_unavailable (sort_by : String) :
    validate_sort_column sort_by none =
      (false, "Query metadata not available - cannot validate sort column") ∧
    validate_sort_column sort_by (some []) =
      (false, "Query metadata not available - cannot validate sort column") :=
  ⟨rfl, rfl⟩

/-! ## MetadataConsistencyValidator
(src/apps/fm-app/fm_app/validators/metadata_validator.py). -/

/-- One output expression of the outermost SELECT, as produced by the external
sqlglot parser: an alias node (rendered SQL text kept for the fallback naming
branch), a bare column reference, a star, or any other expression with its
rendered SQL text. -/
inductive SelectExpr where
  | aliased (a : String) (sqlText : String)
  | column (name : String)
  | star
  | other (sqlText : String)
deriving DecidableEq

/-- sqlglot `expression.alias`: the alias name, or `""` when there is none. -/
def exprAlias : SelectExpr → String
  | .aliased a _ => a
  | _ => ""

/-- Embedding of `re.sub` with pattern "not a word character" replaced by
an underscore, over ASCII word characters. -/
def cleanName (s : String) : String :=
  ⟨s.data.map (fun c => if c.isAlphanum || c = '_' then c else '_')⟩

/-- The per-expression loop of `extract_result_columns`
(metadata_validator.py lines 55-78): alias if truthy, else column name, else
the early `return []` on a star, else a sanitized rendering. -/
def extractLoop : List SelectExpr → List String → List String
  | [], acc => acc.reverse
  | e :: rest, acc =>
    if exprAlias e ≠ "" then extractLoop rest (exprAlias e :: acc)
    else
      match e with
      | .column name => extractLoop rest (name :: acc)
      | .star => []
      | .aliased _ t => extractLoop rest (cleanName t :: acc)
      | .other t => extractLoop rest (cleanName t :: acc)

/-- Embedding of `extract_result_columns`.  The external sqlglot parse is an
explicit argument; `none` models both a parse exception and the absence of a
SELECT node, each of which surfaces as `MetadataValidationError`. -/
def extract_result_columns (parse : String → Option (List SelectExpr))
    (sql : String) : Except String (List String) :=
  match parse sql with
  | none => .error ("Failed to parse SQL")
  | some exprs => .ok (extractLoop exprs [])

/-- One metadata column: its `id` and its `column_name` (None allowed). -/
structure MetaColDecl where
  id : Nat
  column_name : Option String
deriving DecidableEq

/-- The metadata under validation: its SQL and declared columns. -/
structure QueryMetadata where
  sql : String
  columns : Option (List MetaColDecl)
deriving DecidableEq

/-- The dict returned by `validate_metadata`. -/
structure ValidationResult where
  valid : Bool
  errors : List String
  warnings : List String
  sql_columns : List String
  metadata_columns : List String
deriving DecidableEq

/-- Python truthiness of an optional column name. -/
def colNameTruthy : Option String → Bool
  | some s => s != ""
  | none => false

/-- Python `set(...)` built from a list (first occurrence kept). -/
def pySet (l : List String) : List String :=
  l.foldl (fun acc x => if x ∈ acc then acc else acc ++ [x]) []

/-- Python list repr `['a', 'b']` of a sorted set, as interpolated into the
mismatch error messages. -/
def pyListRepr (l : List String) : String :=
  "[" ++ String.intercalate (", ") (l.map (fun s => sq ++ s ++ sq)) ++ "]"

/-- The regex `^[A-Za-z_][A-Za-z0-9_]*$`. -/
def isIdentifier (s : String) : Bool :=
  match s.data with
  | [] => false
  | c :: rest =>
    (c.isAlpha || c = '_') && rest.all (fun c => c.isAlphanum || c = '_')

/-- Embedding of `validate_metadata` (metadata_validator.py lines 86-205). -/
def validate_metadata (parse : String → Option (List SelectExpr))
    (metadata : QueryMetadata) : ValidationResult :=
  if metadata.sql = "" then
    ⟨false, ["No SQL found in metadata"], [], [], []⟩
  else
    match extract_result_columns parse metadata.sql with
    | .error e => ⟨false, [e], [], [], []⟩
    | .ok sql_columns =>
      if sql_columns.isEmpty then
        ⟨true, [],
          ["SQL uses SELECT * or couldn't determine columns - skipping validation"],
          [], []⟩
      else
        let cols := metadata.columns.getD []
        let metadata_columns :=
          (cols.filter (fun c => colNameTruthy c.column_name)).map
            (fun c => c.column_name.getD "")
        let sql_norm := pySet (sql_columns.map (fun c => pyStrip (pyLower c)))
        let meta_norm := pySet (metadata_columns.map (fun c => pyStrip (pyLower c)))
        let missing := sql_norm.filter (fun c => c ∉ meta_norm)
        let extra := meta_norm.filter (fun c => c ∉ sql_norm)
        let errors0 :=
          (if ¬ missing.isEmpty then
            ["Columns in SQL but missing from metadata: " ++
              pyListRepr (pySorted missing)]
          else []) ++
          (if ¬ extra.isEmpty then
            ["Columns in metadata but not in SQL results: " ++
              pyListRepr (pySorted extra)]
          else [])
        let perCol := cols.map (fun c =>
          match c.column_name with
          | none => ([], ["Column " ++ toString c.id ++ " has no column_name"])
          | some name =>
            if name = "" then
              ([], ["Column " ++ toString c.id ++ " has no column_name"])
            else
              ((if ('(') ∈ name.data ∧ (')') ∈ name.data then
                ["column_name " ++ sq ++ name ++ sq ++
                  " contains function/expression - should be the alias instead"]
              else []) ++
              (if ('.') ∈ name.data then
                ["column_name " ++ sq ++ name ++ sq ++
                  " contains table prefix - should be just the column name"]
              else []) ++
              (if ¬ isIdentifier name then
                ["column_name " ++ sq ++ name ++ sq ++
                  " is not a valid SQL identifier"]
              else []), []))
        let errors := errors0 ++ (perCol.map Prod.fst).flatten
        let warnings := (perCol.map Prod.snd).flatten
        ⟨errors.isEmpty, errors, warnings, sql_columns, metadata_columns⟩

theorem extractLoop_star (exprs : List SelectExpr)
    (h : SelectExpr.star ∈ exprs) : ∀ acc, extractLoop exprs acc = [] := by
  induction exprs with
  | nil => simp at h
  | cons e rest ih =>
    intro acc
    rcases List.mem_cons.mp h with he | he
    · rw [← he]
      rfl
    · cases e with
      | aliased a t =>
        by_cases ha : a = ""
        · subst ha
          exact ih he _
        · show (if exprAlias (.aliased a t) ≠ "" then
              extractLoop rest (exprAlias (.aliased a t) :: acc)
            else _) = []
          rw [if_pos (by simpa [exprAlias] using ha)]
          exact ih he _
      | column name => exact ih he _
      | star => rfl
      | other t => exact ih he _

/-- C7: when the outermost SELECT contains a wildcard/star output expression,
`extract_result_columns` returns the empty list (a cannot-validate signal, not
an error), and `validate_metadata` on that SQL returns `valid = true`, an
empty error list, and a single warning noting that validation was skipped. -/
theorem star_skips_validation (parse : String → Option (List SelectExpr))
    (metadata : QueryMetadata) (exprs : List SelectExpr)
    (hsql : metadata.sql ≠ "") (hparse : parse metadata.sql = some exprs)
    (hstar : SelectExpr.star ∈ exprs) :
    extract_result_columns parse metadata.sql = .ok [] ∧
    validate_metadata parse metadata =
      ⟨true, [],
        ["SQL uses SELECT * or couldn't determine columns - skipping validation"],
        [], []⟩ := by
  have hext : extract_result_columns parse metadata.sql = .ok [] := by
    unfold extract_result_columns
    rw [hparse]
    show Except.ok (extractLoop exprs []) = Except.ok []
    rw [extractLoop_star exprs hstar []]
  refine ⟨hext, ?_⟩
  unfold validate_metadata
  rw [if_neg hsql, hext]
  rfl

/-- C7 witness at a concrete input. -/
theorem star_skips_validation_witness :
    extract_result_columns
      (fun _ => some [SelectExpr.column ("a"), SelectExpr.star])
      ("SELECT a, * FROM t") = .ok [] ∧
    validate_metadata
      (fun _ => some [SelectExpr.column ("a"), SelectExpr.star])
      ⟨"SELECT a, * FROM t", some []⟩ =
      ⟨true, [],
        ["SQL uses SELECT * or couldn't determine columns - skipping validation"],
        [], []⟩ :=
  star_skips_validation
    (fun _ => some [SelectExpr.column ("a"), SelectExpr.star])
    ⟨"SELECT a, * FROM t", some []⟩
    [SelectExpr.column ("a"), SelectExpr.star]
    (by decide) rfl (by simp)

/-! ## CatalogWalker: overlay resolution and visibility
(src/apps/db-meta/dbmeta_app/prompt_items/db_struct.py). -/

/-- A YAML/Python value stored in the description overlay. -/
inductive PyVal where
  | pyBool (b : Bool)
  | pyStr (s : String)
  | pyInt (n : Int)
  | pyDict (entries : List (String × PyVal))

/-- Python truthiness `bool(v)`. -/
def pyTruthy : PyVal → Bool
  | .pyBool b => b
  | .pyStr s => s != ""
  | .pyInt n => n != 0
  | .pyDict d => !d.isEmpty

/-- A table descriptor from the overlay: a Python dict. -/
abbrev TableMeta := List (String × PyVal)

/-- Python `dict.get(k, default)` on a table descriptor. -/
def pyGetD (m : TableMeta) (k : String) (d : PyVal) : PyVal :=
  (List.lookup k m).getD d

/-- The per-profile overlay (`descriptions`): its `tables` dict
(`descriptions.get("tables", {})`) and its optional `whitelist` value
(`descriptions.get("whitelist", False)`), the two keys the walker consults. -/
structure Descriptions where
  tables : List (String × TableMeta)
  whitelist : Option PyVal

/-- Embedding of `_get_table_metadata_with_fallback` (db_struct.py lines
181-216): try `catalog.schema.table` (when catalog and schema are truthy),
then `schema.table` (when schema is truthy), then the bare table name; first
hit wins, otherwise an empty descriptor. -/
def getTableMetadataWithFallback (descriptions : Descriptions)
    (table_name : String) (schema_name catalog_name : Option String) :
    TableMeta :=
  let tables := descriptions.tables
  let viaFq :=
    if optStrTruthy catalog_name && optStrTruthy schema_name then
      List.lookup
        (catalog_name.getD "" ++ "." ++ schema_name.getD "" ++ "." ++
          table_name) tables
    else none
  match viaFq with
  | some m => m
  | none =>
    let viaSchema :=
      if optStrTruthy schema_name then
        List.lookup (schema_name.getD "" ++ "." ++ table_name) tables
      else none
    match viaSchema with
    | some m => m
    | none => (List.lookup table_name tables).getD []

/-- Embedding of `_should_include_table` (db_struct.py lines 219-240). -/
def shouldIncludeTable (descriptions : Descriptions)
    (table_metadata : TableMeta) : Bool :=
  let has_whitelist := descriptions.whitelist.getD (.pyBool false)
  let has_table_description := !table_metadata.isEmpty
  if pyTruthy has_whitelist && !has_table_description then false
  else if pyTruthy (pyGetD table_metadata ("hidden") (.pyBool false)) then false
  else true

/-- C5: overlay resolution is deterministic and total (it is a function), and
tries `catalog.schema.table`, then `schema.table`, then the bare table name,
stopping at the first key present and otherwise returning an empty
descriptor; in particular an overlay holding only `"orders"` resolves
`(c1, public, orders)` to the `"orders"` entry, while an overlay holding both
`"orders"` and `"c1.public.orders"` resolves the same triple to the
`"c1.public.orders"` entry. -/
theorem overlay_resolution_precedence :
    (∀ (d : Descriptions) (t : String) (s c : Option String) (m : TableMeta),
      optStrTruthy c = true → optStrTruthy s = true →
      List.lookup (c.getD "" ++ "." ++ s.getD "" ++ "." ++ t) d.tables =
        some m →
      getTableMetadataWithFallback d t s c = m) ∧
    (∀ (d : Descriptions) (t : String) (s c : Option String) (m : TableMeta),
      (optStrTruthy c && optStrTruthy s) = true →
      List.lookup (c.getD "" ++ "." ++ s.getD "" ++ "." ++ t) d.tables =
        none →
      optStrTruthy s = true →
      List.lookup (s.getD "" ++ "." ++ t) d.tables = some m →
      getTableMetadataWithFallback d t s c = m) ∧
    (∀ (d : Descriptions) (t : String) (s c : Option String),
      (optStrTruthy c && optStrTruthy s) = true →
      List.lookup (c.getD "" ++ "." ++ s.getD "" ++ "." ++ t) d.tables =
        none →
      List.lookup (s.getD "" ++ "." ++ t) d.tables = none →
      getTableMetadataWithFallback d t s c =
        (List.lookup t d.tables).getD []) ∧
    (∀ m1 : TableMeta,
      getTableMetadataWithFallback ⟨[("orders", m1)], none⟩ ("orders")
        (some ("public")) (some ("c1")) = m1) ∧
    (∀ m1 m2 : TableMeta,
      getTableMetadataWithFallback
        ⟨[("orders", m1), ("c1.public.orders", m2)], none⟩ ("orders")
        (some ("public")) (some ("c1")) = m2) := by
  refine ⟨?_, ?_, ?_, ?_, ?_⟩
  · intro d t s c m hc hs hlk
    simp only [getTableMetadataWithFallback]
    rw [if_pos (by rw [hc, hs]; rfl), hlk]
  · intro d t s c m hcs hfq hs hlk
    simp only [getTableMetadataWithFallback]
    rw [if_pos hcs, hfq, if_pos hs, hlk]
  · intro d t s c hcs hfq hst
    simp only [getTableMetadataWithFallback]
    rw [if_pos hcs, hfq]
    have hs : optStrTruthy s = true :=
      ((by simpa using hcs :
        optStrTruthy c = true ∧ optStrTruthy s = true)).2
    rw [if_pos hs, hst]
  · intro m1
    rfl
  · intro m1 m2
    rfl

/-- C5 witness at a concrete input. -/
theorem overlay_resolution_precedence_witness :
    getTableMetadataWithFallback
      ⟨[("c1.public.orders", [("hidden", PyVal.pyBool true)])], none⟩
      ("orders") (some ("public")) (some ("c1")) =
      [("hidden", PyVal.pyBool true)] :=
  overlay_resolution_precedence.1
    ⟨[("c1.public.orders", [("hidden", PyVal.pyBool true)])], none⟩
    ("orders") (some ("public")) (some ("c1"))
    [("hidden", PyVal.pyBool true)] rfl rfl rfl

/-- C10: in whitelist mode a discovered table is included only if its resolved
overlay descriptor is a non-empty dict — a table whose overlay entry exists
but is empty is excluded exactly as if it had no entry; outside whitelist mode
the table is included iff its resolved descriptor does not mark it hidden. -/
theorem whitelist_empty_descriptor_excluded :
    (∀ (d : Descriptions) (t : String) (s c : Option String),
      pyTruthy (d.whitelist.getD (.pyBool false)) = true →
      getTableMetadataWithFallback d t s c = [] →
      shouldIncludeTable d (getTableMetadataWithFallback d t s c) = false) ∧
    (∀ wl : Option PyVal,
      getTableMetadataWithFallback ⟨[("orders", [])], wl⟩ ("orders") none
        none = [] ∧
      getTableMetadataWithFallback ⟨[], wl⟩ ("orders") none none = [] ∧
      shouldIncludeTable ⟨[("orders", [])], wl⟩
          (getTableMetadataWithFallback ⟨[("orders", [])], wl⟩ ("orders")
            none none) =
        shouldIncludeTable ⟨[], wl⟩
          (getTableMetadataWithFallback ⟨[], wl⟩ ("orders") none none)) ∧
    (∀ (d : Descriptions) (tm : TableMeta),
      pyTruthy (d.whitelist.getD (.pyBool false)) = false →
      (shouldIncludeTable d tm = true ↔
        pyTruthy (pyGetD tm ("hidden") (.pyBool false)) = false)) := by
  refine ⟨?_, ?_, ?_⟩
  · intro d t s c hwl hres
    rw [hres]
    simp only [shouldIncludeTable]
    rw [if_pos (by rw [hwl]; rfl)]
  · intro wl
    refine ⟨rfl, rfl, rfl⟩
  · intro d tm hwl
    simp only [shouldIncludeTable]
    rw [if_neg (by rw [hwl]; simp)]
    constructor
    · intro h
      by_cases hh : pyTruthy (pyGetD tm ("hidden") (.pyBool false)) = true
      · rw [if_pos hh] at h
        exact absurd h (by simp)
      · simpa using hh
    · intro h
      rw [if_neg (by simp [h])]

/-- C10 witness at a concrete input. -/
theorem whitelist_empty_descriptor_excluded_witness :
    shouldIncludeTable ⟨[], some (PyVal.pyBool true)⟩
      (getTableMetadataWithFallback ⟨[], some (PyVal.pyBool true)⟩ ("t")
        none none) = false :=
  whitelist_empty_descriptor_excluded.1 ⟨[], some (PyVal.pyBool true)⟩ ("t")
    none none rfl rfl

/-! ## ExplainEstimateParser: `parse_trino_estimates`
(db_struct.py lines 853-909). -/

/-- Python regex `\s` on ASCII characters. -/
def pySpace (c : Char) : Bool :=
  c = ' ' || c = '\t' || c = '\n' || c = '\r' || c = '\x0b' || c = '\x0c'

/-- The class `[\d,]` (ASCII digits). -/
def isDigitComma (c : Char) : Bool := c.isDigit || c = ','

/-- The class `[\d.]` (ASCII digits). -/
def isDigitDot (c : Char) : Bool := c.isDigit || c = '.'

/-- Match a literal at the head of `s`, returning the remainder. -/
def expectLit : List Char → List Char → Option (List Char)
  | [], s => some s
  | _ :: _, [] => none
  | c :: lit, d :: s => if c = d then expectLit lit s else none

/-- The three capture groups of one `Estimates:` pattern match. -/
structure TrinoMatch where
  rowsStr : List Char
  sizeStr : List Char
  unitStr : List Char
deriving DecidableEq

/-- Attempt to match the regex
`Estimates:\s*\x7brows:\s*([\d,]+)\s*\(([\d.]+)([KMGT]?B)\)` at the head of
`s`.  The character classes of adjacent regex pieces are disjoint, so greedy
matching without backtracking is exact. -/
def matchEstimateAt (s : List Char) : Option TrinoMatch :=
  match expectLit ("Estimates:").data s with
  | none => none
  | some s1 =>
    match expectLit ("\x7brows:").data (s1.dropWhile pySpace) with
    | none => none
    | some s3 =>
      let s4 := s3.dropWhile pySpace
      let rowsStr := s4.takeWhile isDigitComma
      if rowsStr.isEmpty then none
      else
        match (s4.dropWhile isDigitComma).dropWhile pySpace with
        | '(' :: s6 =>
          let sizeStr := s6.takeWhile isDigitDot
          if sizeStr.isEmpty then none
          else
            match s6.dropWhile isDigitDot with
            | 'B' :: ')' :: _ => some ⟨rowsStr, sizeStr, ['B']⟩
            | u :: 'B' :: ')' :: _ =>
              if u = 'K' ∨ u = 'M' ∨ u = 'G' ∨ u = 'T' then
                some ⟨rowsStr, sizeStr, [u, 'B']⟩
              else none
            | _ => none
        | _ => none

/-- Embedding of `re.findall` of the estimate pattern: try a match at every
position.  A
match can never begin strictly inside another match (the only `E` of a match
span is the first character of its `Estimates:` literal), so per-position
scanning returns exactly the non-overlapping matches `re.findall` returns. -/
def scanEstimates : List Char → List TrinoMatch
  | [] => []
  | c :: rest =>
    (match matchEstimateAt (c :: rest) with
     | some m => [m]
     | none => []) ++ scanEstimates rest

/-- Decimal value of a digit list. -/
def natOfDigits (l : List Char) : Nat :=
  l.foldl (fun acc c => acc * 10 + (c.toNat - 48)) 0

/-- Python `int(x.replace(",", ""))` on a `[\d,]+` match: `ValueError` (none)
when no digit remains. -/
def pyIntOfDigits (s : List Char) : Option Nat :=
  let ds := s.filter (fun c => c ≠ ',')
  if ds.isEmpty then none else some (natOfDigits ds)

/-- Python `float(x)` on a `[\d.]+` match, as an exact rational: `ValueError`
(none) on more than one dot or no digit at all. -/
def pyFloatOfDecimal (s : List Char) : Option ℚ :=
  if 2 ≤ (s.filter (fun c => c = '.')).length then none
  else if (s.filter Char.isDigit).isEmpty then none
  else
    let ip := s.takeWhile (fun c => c ≠ '.')
    let fp := (s.dropWhile (fun c => c ≠ '.')).tail
    some ((natOfDigits ip : ℚ) + (natOfDigits fp : ℚ) / (10 : ℚ) ^ fp.length)

/-- The size-unit conversion table (db_struct.py lines 886-899). -/
def sizeToGb (size : ℚ) (unit : List Char) : ℚ :=
  if unit = ['K', 'B'] then size / (1024 * 1024)
  else if unit = ['M', 'B'] then size / 1024
  else if unit = ['G', 'B'] then size
  else if unit = ['T', 'B'] then size * 1024
  else if unit = ['B'] then size / (1024 * 1024 * 1024)
  else size / (1024 * 1024 * 1024)

/-- The running-maximum update of the Python loop
(`if max is None or x > max`). -/
def maxUpd {α : Type} [LinearOrder α] (acc : Option α) (x : α) : Option α :=
  match acc with
  | none => some x
  | some m => if m < x then some x else some m

/-- Folded running maximum over a whole list. -/
def listMax {α : Type} [LinearOrder α] (l : List α) : Option α :=
  l.foldl maxUpd none

/-- One iteration of the inner match loop: parse the rows group and update the
row maximum, then parse the size group, convert it, and update the size
maximum; a parse failure propagates as a `ValueError`. -/
def updateEstimates (acc : Option Nat × Option ℚ) (m : TrinoMatch) :
    Except String (Option Nat × Option ℚ) :=
  match pyIntOfDigits m.rowsStr with
  | none => .error ("ValueError: invalid literal for int")
  | some rows =>
    match pyFloatOfDecimal m.sizeStr with
    | none => .error ("ValueError: could not convert string to float")
    | some size =>
      .ok (maxUpd acc.1 rows, maxUpd acc.2 (sizeToGb size m.unitStr))

/-- Embedding of `parse_trino_estimates` (db_struct.py lines 853-909).  Each
explanation row is modelled by the string under its "Query Plan" key (the
empty string when the key is missing, which the loop skips). -/
def parse_trino_estimates (explanation_rows : List String) :
    Except String (Option Nat × Option ℚ) :=
  explanation_rows.foldlM (fun acc row =>
    if row = "" then .ok acc
    else (scanEstimates row.data).foldlM updateEstimates acc) ((none, none))

/-- All pattern matches across all explanation rows, in order. -/
def allMatches (explanation_rows : List String) : List TrinoMatch :=
  explanation_rows.flatMap (fun row =>
    if row = "" then [] else scanEstimates row.data)

/-- The rows value of each match. -/
def rowVals (ms : List TrinoMatch) : List Nat :=
  ms.map (fun m => (pyIntOfDigits m.rowsStr).getD 0)

/-- The size of each match, converted to gigabytes. -/
def gbVals (ms : List TrinoMatch) : List ℚ :=
  ms.map (fun m => sizeToGb ((pyFloatOfDecimal m.sizeStr).getD 0) m.unitStr)

theorem foldl_maxUpd_spec {α : Type} [LinearOrder α] :
    ∀ (l : List α) (acc : Option α),
      (l.foldl maxUpd acc = none ↔ acc = none ∧ l = []) ∧
      (∀ v, l.foldl maxUpd acc = some v →
        (∀ x ∈ l, x ≤ v) ∧ (∀ a, acc = some a → a ≤ v) ∧
        (v ∈ l ∨ acc = some v)) := by
  intro l
  induction l with
  | nil =>
    intro acc
    refine ⟨by simp, ?_⟩
    intro v hv
    simp only [List.foldl_nil] at hv
    refine ⟨by simp, ?_, Or.inr hv⟩
    intro a ha
    rw [ha] at hv
    injection hv with h
    exact le_of_eq h
  | cons x rest ih =>
    intro acc
    have hstep : ∀ (acc : Option α), ∃ w, maxUpd acc x = some w ∧ x ≤ w ∧
        (∀ a, acc = some a → a ≤ w) ∧ (w = x ∨ acc = some w) := by
      intro acc
      cases acc with
      | none => exact ⟨x, rfl, le_refl x, by simp, Or.inl rfl⟩
      | some m =>
        by_cases hlt : m < x
        · refine ⟨x, ?_, le_refl x, ?_, Or.inl rfl⟩
          · simp only [maxUpd, if_pos hlt]
          · intro a ha
            injection ha with ha
            rw [← ha]
            exact le_of_lt hlt
        · refine ⟨m, ?_, le_of_not_lt hlt, ?_, Or.inr rfl⟩
          · simp only [maxUpd, if_neg hlt]
          · intro a ha
            injection ha with ha
            rw [← ha]
    obtain ⟨w, hw, hxw, haw, hwor⟩ := hstep acc
    constructor
    · simp only [List.foldl_cons, hw]
      rw [(ih (some w)).1]
      simp
    · intro v hv
      simp only [List.foldl_cons, hw] at hv
      obtain ⟨hub, hacc', hmem'⟩ := (ih (some w)).2 v hv
      have hwv : w ≤ v := hacc' w rfl
      refine ⟨?_, ?_, ?_⟩
      · intro y hy
        rcases List.mem_cons.mp hy with hy | hy
        · rw [hy]
          exact le_trans hxw hwv
        · exact hub y hy
      · intro a ha
        exact le_trans (haw a ha) hwv
      · rcases hmem' with hm | hm
        · exact Or.inl (List.mem_cons_of_mem x hm)
        · injection hm with hm
          rcases hwor with hw2 | hw2
          · refine Or.inl ?_
            rw [← hm, hw2]
            exact List.mem_cons_self x rest
          · refine Or.inr ?_
            rw [← hm]
            exact hw2

theorem foldlM_updateEstimates (ms : List TrinoMatch) :
    ∀ acc : Option Nat × Option ℚ,
      (∀ m ∈ ms, (pyIntOfDigits m.rowsStr).isSome ∧
        (pyFloatOfDecimal m.sizeStr).isSome) →
      ms.foldlM updateEstimates acc =
        .ok (List.foldl maxUpd acc.1 (rowVals ms),
          List.foldl maxUpd acc.2 (gbVals ms)) := by
  induction ms with
  | nil => intro acc _; rfl
  | cons m ms ih =>
    intro acc hwf
    obtain ⟨hrow, hsize⟩ := hwf m (List.mem_cons_self m ms)
    obtain ⟨rv, hrv⟩ := Option.isSome_iff_exists.mp hrow
    obtain ⟨sv, hsv⟩ := Option.isSome_iff_exists.mp hsize
    rw [List.foldlM_cons]
    have hupd : updateEstimates acc m =
        .ok (maxUpd acc.1 rv, maxUpd acc.2 (sizeToGb sv m.unitStr)) := by
      unfold updateEstimates
      rw [hrv, hsv]
    rw [hupd]
    show ms.foldlM updateEstimates
      (maxUpd acc.1 rv, maxUpd acc.2 (sizeToGb sv m.unitStr)) = _
    rw [ih _ (fun m' hm' => hwf m' (List.mem_cons_of_mem m hm'))]
    simp only [rowVals, gbVals, List.map_cons, List.foldl_cons, hrv, hsv,
      Option.getD_some]

theorem parse_trino_aux (rows : List String) :
    ∀ acc : Option Nat × Option ℚ,
      rows.foldlM (fun acc row =>
        if row = "" then .ok acc
        else (scanEstimates row.data).foldlM updateEstimates acc) acc =
      (allMatches rows).foldlM updateEstimates acc := by
  induction rows with
  | nil => intro acc; rfl
  | cons r rest ih =>
    intro acc
    rw [List.foldlM_cons]
    by_cases hr : r = ""
    · rw [if_pos hr]
      show rest.foldlM _ acc = _
      rw [ih]
      simp [allMatches, hr]
    · rw [if_neg hr]
      rw [show allMatches (r :: rest) =
        scanEstimates r.data ++ allMatches rest from by
          simp [allMatches, hr]]
      rw [List.foldlM_append]
      cases hres : (scanEstimates r.data).foldlM updateEstimates acc with
      | error e => rfl
      | ok acc' => exact ih acc'

set_option maxRecDepth 100000 in
/-- C6: the Trino estimate parser returns `estimated_rows` equal to the
maximum rows value over all `Estimates: \x7brows: N (S U)\x7d` matches across
all plan rows, and `estimated_size_gb` equal to the maximum of the sizes
converted to gigabytes through the fixed unit table, the two maxima computed
independently over all matches; on plan text containing matches with rows 100
(1.00MB) and rows 5,000 (2.00GB), it returns rows 5000 and exactly 2 GB. -/
theorem trino_estimates_independent_maxima :
    (∀ rows : List String,
      (∀ m ∈ allMatches rows, (pyIntOfDigits m.rowsStr).isSome ∧
        (pyFloatOfDecimal m.sizeStr).isSome) →
      parse_trino_estimates rows =
        .ok (listMax (rowVals (allMatches rows)),
          listMax (gbVals (allMatches rows)))) ∧
    (∀ (l : List Nat) (v : Nat), listMax l = some v →
      v ∈ l ∧ ∀ x ∈ l, x ≤ v) ∧
    (∀ (l : List ℚ) (v : ℚ), listMax l = some v →
      v ∈ l ∧ ∀ x ∈ l, x ≤ v) ∧
    parse_trino_estimates
      ["- Output\n   Estimates: \x7brows: 100 (1.00MB), cpu: ?, memory: ?\x7d",
        "   Estimates: \x7brows: 5,000 (2.00GB), cpu: ?\x7d"] =
      .ok (some 5000, some 2) := by
  have hmain : ∀ rows : List String,
      (∀ m ∈ allMatches rows, (pyIntOfDigits m.rowsStr).isSome ∧
        (pyFloatOfDecimal m.sizeStr).isSome) →
      parse_trino_estimates rows =
        .ok (listMax (rowVals (allMatches rows)),
          listMax (gbVals (allMatches rows))) := by
    intro rows hwf
    unfold parse_trino_estimates listMax
    rw [parse_trino_aux rows ((none, none))]
    exact foldlM_updateEstimates (allMatches rows) ((none, none)) hwf
  refine ⟨hmain, ?_, ?_, ?_⟩
  · intro l v hv
    obtain ⟨hub, -, hmem⟩ := (foldl_maxUpd_spec l none).2 v hv
    rcases hmem with hm | hm
    · exact ⟨hm, hub⟩
    · exact absurd hm (by simp)
  · intro l v hv
    obtain ⟨hub, -, hmem⟩ := (foldl_maxUpd_spec l none).2 v hv
    rcases hmem with hm | hm
    · exact ⟨hm, hub⟩
    · exact absurd hm (by simp)
  · rw [hmain _ (by decide)]
    rw [show allMatches
      ["- Output\n   Estimates: \x7brows: 100 (1.00MB), cpu: ?, memory: ?\x7d",
        "   Estimates: \x7brows: 5,000 (2.00GB), cpu: ?\x7d"] =
      [⟨['1', '0', '0'], ['1', '.', '0', '0'], ['M', 'B']⟩,
        ⟨['5', ',', '0', '0', '0'], ['2', '.', '0', '0'], ['G', 'B']⟩]
      from by decide]
    have hrows : rowVals
        [⟨['1', '0', '0'], ['1', '.', '0', '0'], ['M', 'B']⟩,
          ⟨['5', ',', '0', '0', '0'], ['2', '.', '0', '0'], ['G', 'B']⟩] =
        [100, 5000] := by decide
    have hq1 : (pyFloatOfDecimal ['1', '.', '0', '0']).getD 0 = 1 := by
      rw [show pyFloatOfDecimal ['1', '.', '0', '0'] =
        some (((1 : ℕ) : ℚ) + ((0 : ℕ) : ℚ) / (10 : ℚ) ^ 2) from rfl]
      rw [Option.getD_some]
      norm_num
    have hq2 : (pyFloatOfDecimal ['2', '.', '0', '0']).getD 0 = 2 := by
      rw [show pyFloatOfDecimal ['2', '.', '0', '0'] =
        some (((2 : ℕ) : ℚ) + ((0 : ℕ) : ℚ) / (10 : ℚ) ^ 2) from rfl]
      rw [Option.getD_some]
      norm_num
    have hgbs : gbVals
        [⟨['1', '0', '0'], ['1', '.', '0', '0'], ['M', 'B']⟩,
          ⟨['5', ',', '0', '0', '0'], ['2', '.', '0', '0'], ['G', 'B']⟩] =
        [(1 : ℚ) / 1024, 2] := by
      unfold gbVals
      rw [List.map_cons, List.map_cons, List.map_nil]
      rw [hq1, hq2]
      rw [show sizeToGb 1 ['M', 'B'] = 1 / 1024 from rfl]
      rw [show sizeToGb 2 ['G', 'B'] = 2 from rfl]
    rw [hrows, hgbs]
    rw [show listMax [(100 : Nat), 5000] = some 5000 from by decide]
    rw [show listMax [(1 : ℚ) / 1024, 2] = some 2 from by
      unfold listMax
      rw [List.foldl_cons, List.foldl_cons, List.foldl_nil]
      rw [show maxUpd (none : Option ℚ) (1 / 1024) = some (1 / 1024) from rfl]
      show (if (1 : ℚ) / 1024 < 2 then some 2 else some (1 / 1024)) = some 2
      rw [if_pos (by norm_num)]]

/-- C6 witness at a concrete input (discharging the well-formedness
hypothesis of the universally quantified part). -/
theorem trino_estimates_independent_maxima_witness :
    parse_trino_estimates
      ["   Estimates: \x7brows: 7 (3.00GB), cpu: ?\x7d"] =
      .ok (listMax (rowVals (allMatches
        ["   Estimates: \x7brows: 7 (3.00GB), cpu: ?\x7d"])),
        listMax (gbVals (allMatches
          ["   Estimates: \x7brows: 7 (3.00GB), cpu: ?\x7d"]))) :=
  trino_estimates_independent_maxima.1
    ["   Estimates: \x7brows: 7 (3.00GB), cpu: ?\x7d"] (by decide)

/-! ## CatalogWalker: `generate_schema_prompt`
(db_struct.py lines 241-465). -/

/-- A column as returned by live introspection: its name and type text. -/
structure DbIntroColumn where
  name : String
  type : String

/-- The external introspection surface used by the walk.  `_get_catalogs` and
`_get_schemas_for_catalog` catch their own exceptions internally and always
return a list, so they are total here; table and column listing (whether the
trino `SHOW TABLES`/`DESCRIBE` path or the generic inspector path) may raise,
modelled by `Except Unit`. -/
structure DbIntro where
  catalogs : List (Option String)
  schemasOf : Option String → List (Option String)
  tablesOf : Option String → Option String → Except Unit (List String)
  columnsOf : Option String → Option String → String →
    Except Unit (List DbIntroColumn)

/-- Python `str.startswith`. -/
def pyStartsWith (s pre : String) : Bool := pre.data.isPrefixOf s.data

/-- The per-dialect system-schema filter of `generate_schema_prompt`
(db_struct.py lines 282-315). -/
def filterSchemas (dialect : String) (ss : List (Option String)) :
    List (Option String) :=
  if dialect = "clickhouse" then
    ss.filter (fun s =>
      match s with
      | some s => s != "" && !(pyStartsWith s ("_")) &&
          !(s = "system" || s = "information_schema" ||
            s = "INFORMATION_SCHEMA")
      | none => false)
  else if dialect = "postgresql" ∨ dialect = "postgres" then
    ss.filter (fun s =>
      match s with
      | some s => s != "" &&
          !(s = "information_schema" || s = "pg_catalog" || s = "pg_toast" ||
            s = "pg_temp_1")
      | none => false)
  else if dialect = "trino" then
    ss.filter (fun s =>
      match s with
      | some s => s != "" && !(s = "information_schema")
      | none => false)
  else ss

/-- Python `str()`-interpolation of an overlay value into prompt text. -/
def pyValStr : PyVal → String
  | .pyStr s => s
  | .pyBool b => if b then "True" else "False"
  | .pyInt n => toString n
  | .pyDict _ => ""

/-- The dict entries of an overlay value (the YAML schema guarantees a dict
wherever the walker calls `.get` on one). -/
def pyValDict : PyVal → List (String × PyVal)
  | .pyDict d => d
  | _ => []

/-- Python `table.replace("_", " ")`. -/
def pyReplaceUnderscore (s : String) : String :=
  ⟨s.data.map (fun c => if c = '_' then ' ' else c)⟩

/-- One iteration of the `for table in table_names` loop of
`generate_schema_prompt` (with `with_examples = False`, whose sample block is
skipped by its `continue`).  State is (schema_text, table_counter). -/
def tableStep (db : DbIntro) (dialect : String) (descriptions : Descriptions)
    (catalog_name schema_name : Option String) (st : String × Nat)
    (table : String) : String × Nat :=
  if pyStartsWith table ("_") || pyStartsWith table ("temp_") then st
  else
    let table_metadata := getTableMetadataWithFallback descriptions table
      schema_name catalog_name
    if !(shouldIncludeTable descriptions table_metadata) then st
    else
      let counter := st.2 + 1
      let full_table_name :=
        if dialect = "trino" && (optStrTruthy catalog_name &&
            optStrTruthy schema_name) then
          catalog_name.getD "" ++ "." ++ schema_name.getD "" ++ "." ++ table
        else if optStrTruthy schema_name then
          schema_name.getD "" ++ "." ++ table
        else table
      let table_description :=
        match List.lookup ("description") table_metadata with
        | some v => pyValStr v
        | none => "Stores " ++ pyReplaceUnderscore table ++ " data."
      let text1 := st.1 ++ "Table #" ++ toString counter ++ ". **" ++
        full_table_name ++ "** (" ++ table_description ++ ")\n"
      match db.columnsOf catalog_name schema_name table with
      | .error _ =>
        (text1 ++ "   (Unable to retrieve column information)\n\n", counter)
      | .ok columns =>
        let colsDict := pyValDict (pyGetD table_metadata ("columns")
          (.pyDict []))
        let colText := columns.foldl (fun acc col =>
          let col_metadata := pyValDict
            ((List.lookup col.name colsDict).getD (.pyDict []))
          let col_desc := (List.lookup ("description") col_metadata).getD
            (.pyStr "")
          let col_example := (List.lookup ("example") col_metadata).getD
            (.pyStr "")
          let col_hidden := (List.lookup ("hidden") col_metadata).getD
            (.pyBool false)
          if !(pyTruthy col_hidden) then
            acc ++ "   - " ++ col.name ++ " (" ++ col.type ++ ")" ++
              (if pyTruthy col_desc then " - " ++ pyValStr col_desc else "") ++
              (if pyTruthy col_example then
                " (e.g., " ++ pyValStr col_example ++ ")"
              else "") ++ "\n"
          else acc) ""
        (text1 ++ colText ++ "\n", counter)

/-- One iteration of the catalog loop of `generate_schema_prompt`,
transcribing the source's indentation faithfully: the `for schema_name in
schema_names` loop body consists ONLY of the guarded `table_names`
assignment; the `logging.info` call and the `for table in table_names` loop
sit at schema-loop level and run once per catalog, using the last assigned
`table_names` (which persists across iterations and raises `NameError` when
never assigned).  State is (schema_text, table_counter, table_names?). -/
def catalogStep (db : DbIntro) (dialect : String) (descriptions : Descriptions)
    (st : String × Nat × Option (List String)) (catalog_name : Option String) :
    Except String (String × Nat × Option (List String)) :=
  let schema_names0 := filterSchemas dialect (db.schemasOf catalog_name)
  let schema_names := if schema_names0.isEmpty then [none] else schema_names0
  let table_names := schema_names.foldl (fun acc s =>
    match db.tablesOf catalog_name s with
    | .ok ts => some ts
    | .error _ => acc) st.2.2
  match table_names with
  | none => .error ("NameError: name table_names is not defined")
  | some tns =>
    let schema_name := schema_names.getLast?.getD none
    let res := tns.foldl
      (tableStep db dialect descriptions catalog_name schema_name)
      (st.1, st.2.1)
    .ok (res.1, res.2, some tns)

/-- Embedding of `generate_schema_prompt` (db_struct.py lines 241-465) at
`with_examples = False`.  YAML loading and profile selection are external;
the resulting per-profile `descriptions` is an argument. -/
def generate_schema_prompt (db : DbIntro) (dialect : String)
    (descriptions : Descriptions) : Except String String :=
  match db.catalogs.foldlM (catalogStep db dialect descriptions)
    (("The database contains the following tables:\n\n", 0, none)) with
  | .ok res => .ok res.1
  | .error e => .error e

/-- The error of a walk result, when it failed. -/
def walkErr : Except String String → Option String
  | .error e => some e
  | .ok _ => none

/-- The produced schema text, or `""` when the walk failed. -/
def walkText : Except String String → String
  | .ok t => t
  | .error _ => ""

/-- A database with one catalog and three schemas: listing tables succeeds
for s1 (`["t1"]`) and s3 (`["t3"]`) and raises for s2. -/
def dbSchemaSplit : DbIntro :=
  ⟨[none], fun _ => [some ("s1"), some ("s2"), some ("s3")],
    fun _ s =>
      if s = some ("s1") then .ok ["t1"]
      else if s = some ("s3") then .ok ["t3"]
      else .error (),
    fun _ _ _ => .ok []⟩

/-- A database with one catalog and one schema whose table listing raises. -/
def dbSchemaFail : DbIntro :=
  ⟨[none], fun _ => [some ("s1")], fun _ _ => .error (), fun _ _ _ => .ok []⟩

set_option maxRecDepth 40000 in
/-- C2 (evaluating the code at the failing inputs): with three schemas where
only s2's table listing fails, the walk nevertheless drops s1's tables from
the produced text (only the last schema's tables render), and with a single
schema whose table listing fails, a `NameError` escapes the walk — both
contradicting the claim that a failure prunes only its own schema branch and
that no exception escapes. -/
theorem schema_walk_bug_eval :
    walkErr (generate_schema_prompt dbSchemaSplit ("duckdb") ⟨[], none⟩) =
      none ∧
    countOcc ("t1").data
      (walkText (generate_schema_prompt dbSchemaSplit ("duckdb")
        ⟨[], none⟩)).data = 0 ∧
    1 ≤ countOcc ("t3").data
      (walkText (generate_schema_prompt dbSchemaSplit ("duckdb")
        ⟨[], none⟩)).data ∧
    walkErr (generate_schema_prompt dbSchemaFail ("duckdb") ⟨[], none⟩) =
      some ("NameError: name table_names is not defined") := by
  refine ⟨rfl, by decide, by decide, rfl⟩

end SemanticGrid
